import Mathlib

/-!
Verification of the rusty-shooter application core (src/main.rs): the
fixed-timestep run loop, the input-event routing, the save/load commands and
the session (level) lifecycle.  Machine floats (`f32`/`f64`) are modelled as
exact rationals; filesystem and engine collaborators are modelled as explicit
outcome parameters (`Except String Unit` mirroring rg3d's `VisitResult`).
-/

namespace RustyShooter

/-- rg3d's `VisitResult` (= `Result<(), VisitError>`), with the error rendered
as its human-readable reason string. -/
abbrev VisitResult := Except String Unit

/-- Virtual key codes, as used by `process_input_event` (only `Escape` is
inspected by the code under verification). -/
inductive VirtualKeyCode where
  | escape
  | otherKey (code : Nat)
deriving DecidableEq, Repr

/-- Key press state (`ElementState` of winit). -/
inductive ElemState where
  | pressed
  | released
deriving DecidableEq, Repr

/-- OS window events, as matched by `Game::process_input_event`. -/
inductive WindowEvent where
  | closeRequested
  | keyboardInput (state : ElemState) (virtual_keycode : Option VirtualKeyCode)
  | otherWindowEvent (id : Nat)
deriving DecidableEq, Repr

/-- Top-level OS events (`Event` of winit): `process_input_event` only acts on
`Event::WindowEvent` and ignores everything else. -/
inductive Event where
  | windowEvent (e : WindowEvent)
  | otherEvent (id : Nat)
deriving DecidableEq, Repr

/-- Kind tag of an application-level UI event (`UIEventKind`); the game only
reacts to `Click`. -/
inductive UIEventKind where
  | click
  | otherKind (id : Nat)
deriving DecidableEq, Repr

/-- An application-level command event (`UIEvent`): a kind tag, the handle of
the widget that produced it, and the mutable `handled` flag. -/
structure UIEvent where
  kind : UIEventKind
  source : Nat
  handled : Bool
deriving DecidableEq, Repr

/-- Modelled from the spec: the `Level` type lives in `level.rs`, which is not
part of the sources under verification; the spec (§3, §6) describes it as the
single session object exposing `update`, a player input handler and
`destroy()`.  We model it by an identifier, whether it currently has a player,
and the list of OS events its player input handler has observed. -/
structure Level where
  id : Nat
  hasPlayer : Bool
  playerEvents : List WindowEvent
deriving DecidableEq, Repr

/-- Modelled from the spec: the `Menu` type lives in `menu.rs`, which is not
part of the sources under verification.  We model the four main-menu button
handles read by `Game::process_ui_event` and the visibility flag behind
`Menu::set_visible` / `Menu::is_visible`. -/
structure Menu where
  btn_new_game : Nat
  btn_save_game : Nat
  btn_load_game : Nat
  btn_quit_game : Nat
  visible : Bool
deriving DecidableEq, Repr

/-- Observable actions emitted by the modelled operations, in program order.
They record teardown/construction of sessions, menu visibility changes,
`println!` reports, serializer visits and artifact I/O, the run loop's event
dispatch, simulation updates and renders, and a panic (`unwrap` failure). -/
inductive Action where
  | teardown (id : Nat)
  | construct (id : Nat)
  | set_menu (visible : Bool)
  | report (msg : String)
  | visit (region : String)
  | write_text
  | write_binary
  | read_binary
  | poll_os
  | dispatchOs (ev : Event)
  | dispatchUi (source : Nat)
  | update (delta : ℚ) (elapsed : ℚ)
  | render
  | panicked
deriving DecidableEq, Repr

/-- The mutable state of `Game` that the verified code paths touch.  The
engine, sound context and debug text are external collaborators and are not
part of the modelled state. -/
structure Game where
  menu : Menu
  level : Option Level
  running : Bool
  nextLevelId : Nat
deriving DecidableEq, Repr

/-- `GameTime { elapsed: f64, delta: f32 }`, floats modelled as exact
rationals. -/
structure GameTime where
  elapsed : ℚ
  delta : ℚ
deriving DecidableEq, Repr

/-- Outcome of a Rust call that can return `Ok`, return `Err`, or panic. -/
inductive RustOutcome (α : Type) where
  | ok (a : α)
  | err (e : String)
  | panicked
deriving DecidableEq, Repr

/-- Outcomes of the external collaborators that `Game::save_game` invokes:
the two visitor passes, `File::create("save.txt")`, `write_all`, and
`Visitor::save_binary`. -/
structure SaveEnv where
  engineVisit : VisitResult
  levelVisit : VisitResult
  createTextOk : Bool
  writeTextOk : Bool
  saveBinary : VisitResult
deriving Repr

/-- Outcomes of the external collaborators that `Game::load_game` invokes:
`Visitor::load_binary`, the engine visit, the level visit, and the level value
that a successful `self.level.visit` deserializes into `self.level`. -/
structure LoadEnv where
  loadBinary : VisitResult
  engineVisit : VisitResult
  levelVisit : VisitResult
  loadedLevel : Option Level
deriving Repr

/-- Collaborator outcomes for one invocation of the UI command handler. -/
structure IoEnv where
  save : SaveEnv
  load : LoadEnv
deriving Repr

/-- `Game::destroy_level`: `if let Some(ref mut level) = self.level.take() {
level.destroy(&mut self.engine); }`.  Returns the new state and the emitted
teardown actions. -/
def Game.destroy_level (g : Game) : Game × List Action :=
  match g.level with
  | some l => ({ g with level := none }, [Action.teardown l.id])
  | none => (g, [])

/-- `Game::set_menu_visible`, delegating to `Menu::set_visible` (modelled from
the spec as a visibility flag on the menu). -/
def Game.set_menu_visible (g : Game) (visible : Bool) : Game × List Action :=
  ({ g with menu := { g.menu with visible := visible } }, [Action.set_menu visible])

/-- `Game::is_menu_visible`, delegating to `Menu::is_visible`. -/
def Game.is_menu_visible (g : Game) : Bool :=
  g.menu.visible

/-- `Game::start_new_game`: destroy the current level, construct a fresh one
(`Level::new` modelled from the spec as a fresh session with a player), hide
the menu. -/
def Game.start_new_game (g : Game) : Game × List Action :=
  let (g1, t1) := g.destroy_level
  let fresh : Level := { id := g1.nextLevelId, hasPlayer := true, playerEvents := [] }
  let g2 : Game := { g1 with level := some fresh, nextLevelId := g1.nextLevelId + 1 }
  let (g3, t3) := g2.set_menu_visible false
  (g3, t1 ++ [Action.construct fresh.id] ++ t3)

/-- `Game::save_game`: visit `"Engine"` state first, then `"Level"`; if both
succeed, write the debug text artifact (whose `write_all` result is
`.unwrap()`ed — a failure there panics) and then `save_binary`, whose result
is returned.  The state of `Game` is not modified. -/
def Game.save_game (env : SaveEnv) : RustOutcome Unit × List Action :=
  match env.engineVisit with
  | Except.error e => (RustOutcome.err e, [Action.visit "Engine"])
  | Except.ok _ =>
    match env.levelVisit with
    | Except.error e => (RustOutcome.err e, [Action.visit "Engine", Action.visit "Level"])
    | Except.ok _ =>
      if env.createTextOk then
        if env.writeTextOk then
          match env.saveBinary with
          | Except.ok _ =>
            (RustOutcome.ok (), [Action.visit "Engine", Action.visit "Level",
                                 Action.write_text, Action.write_binary])
          | Except.error e =>
            (RustOutcome.err e, [Action.visit "Engine", Action.visit "Level",
                                 Action.write_text, Action.write_binary])
        else
          (RustOutcome.panicked, [Action.visit "Engine", Action.visit "Level",
                                  Action.write_text])
      else
        match env.saveBinary with
        | Except.ok _ =>
          (RustOutcome.ok (), [Action.visit "Engine", Action.visit "Level",
                               Action.write_binary])
        | Except.error e =>
          (RustOutcome.err e, [Action.visit "Engine", Action.visit "Level",
                               Action.write_binary])

/-- `Game::load_game`: first `Visitor::load_binary("save.bin")`; only on a
successful read destroy the current level, then visit `"Engine"`, then
`"Level"` (which on success deserializes the saved level into `self.level`),
and hide the menu only if everything succeeded; every failure is reported. -/
def Game.load_game (env : LoadEnv) (g : Game) : Game × List Action :=
  match env.loadBinary with
  | Except.error e =>
    (g, [Action.read_binary, Action.report ("failed to load a save, reason: " ++ e)])
  | Except.ok _ =>
    let (g1, t1) := g.destroy_level
    match env.engineVisit with
    | Except.error e =>
      (g1, Action.read_binary :: t1 ++
        [Action.visit "Engine", Action.report ("Failed to load engine state! Reason: " ++ e)])
    | Except.ok _ =>
      match env.levelVisit with
      | Except.error e =>
        (g1, Action.read_binary :: t1 ++
          [Action.visit "Engine", Action.visit "Level",
           Action.report ("Failed to load game state! Reason: " ++ e)])
      | Except.ok _ =>
        let g2 : Game := { g1 with level := env.loadedLevel }
        let (g3, t3) := g2.set_menu_visible false
        (g3, Action.read_binary :: t1 ++ [Action.visit "Engine", Action.visit "Level"] ++ t3)

/-- `Game::process_ui_event`: on a `Click`, test the source against the four
menu buttons in order (first match wins), run the corresponding command and
set `handled = true`; the incoming `handled` flag is never read. -/
def Game.process_ui_event (env : IoEnv) (g : Game) (e : UIEvent) :
    Game × UIEvent × List Action :=
  match e.kind with
  | UIEventKind.click =>
    if e.source = g.menu.btn_new_game then
      let (g1, t1) := g.start_new_game
      (g1, { e with handled := true }, t1)
    else if e.source = g.menu.btn_save_game then
      match Game.save_game env.save with
      | (RustOutcome.ok _, t1) =>
        (g, { e with handled := true }, t1 ++ [Action.report "successfully saved"])
      | (RustOutcome.err msg, t1) =>
        (g, { e with handled := true },
          t1 ++ [Action.report ("failed to make a save, reason: " ++ msg)])
      | (RustOutcome.panicked, t1) =>
        (g, e, t1 ++ [Action.panicked])
    else if e.source = g.menu.btn_load_game then
      let (g1, t1) := g.load_game env.load
      (g1, { e with handled := true }, t1)
    else if e.source = g.menu.btn_quit_game then
      let (g1, t1) := g.destroy_level
      ({ g1 with running := false }, { e with handled := true }, t1)
    else
      (g, e, [])
  | UIEventKind.otherKind _ => (g, e, [])

/-- `Game::process_dispatched_event`: offer the event to the UI layer
(`ui.process_input_event`, an external collaborator modelled by the
`uiConsumed` oracle); only if it was not consumed and a level with a player
exists, forward the event to the player's input handler. -/
def Game.process_dispatched_event (uiConsumed : Bool) (g : Game) (e : WindowEvent) : Game :=
  if uiConsumed then g
  else
    match g.level with
    | some l =>
      if l.hasPlayer then
        { g with level := some { l with playerEvents := l.playerEvents ++ [e] } }
      else g
    | none => g

/-- `Game::process_input_event`: only window events are acted on; dispatch to
UI/player first, then apply the unconditional global reactions (close request
stops the loop, a pressed Escape key flips menu visibility).
`Menu::process_input_event` is then called; modelled from the spec, it adjusts
options-menu layout only and does not touch the modelled state. -/
def Game.process_input_event (uiConsumed : Bool) (g : Game) (ev : Event) :
    Game × List Action :=
  match ev with
  | Event.windowEvent e =>
    let g1 := Game.process_dispatched_event uiConsumed g e
    (match e with
     | WindowEvent.closeRequested => ({ g1 with running := false }, [])
     | WindowEvent.keyboardInput state key =>
       match state, key with
       | ElemState.pressed, some VirtualKeyCode.escape =>
         g1.set_menu_visible (!g1.is_menu_visible)
       | _, _ => (g1, [])
     | WindowEvent.otherWindowEvent _ => (g1, []))
  | Event.otherEvent _ => (g, [])

/-- Player events of the current level (empty when no level exists). -/
def Game.playerEvents (g : Game) : List WindowEvent :=
  match g.level with
  | some l => l.playerEvents
  | none => []

/-- `fixed_timestep = 1.0 / fixed_fps` with `fixed_fps = 60.0`, as set up at
the top of `Game::run`. -/
def fixed_timestep : ℚ := 1 / 60

/-- The external world as seen by one execution of `Game::run`: the wall-clock
sample `clock.elapsed()` taken at each outer iteration, the OS events polled
during each simulation step (paired with the UI layer's consumption verdict
for each), the application-level UI events drained during each step, and the
collaborator outcomes for save/load commands. -/
structure RunEnv where
  clock : Nat → ℚ
  osEvents : Nat → List (Bool × Event)
  uiEvents : Nat → List UIEvent
  io : IoEnv

/-- The `while let Some(event) = events.pop_front()` loop of `Game::run`:
process each polled OS event in FIFO order. -/
def drainOsEvents : Game → List (Bool × Event) → Game × List Action
  | g, [] => (g, [])
  | g, (c, ev) :: rest =>
    let (g1, t1) := Game.process_input_event c g ev
    let (g2, t2) := drainOsEvents g1 rest
    (g2, (Action.dispatchOs ev :: t1) ++ t2)

/-- The `while let Some(mut ui_event) = ... poll_ui_event()` loop of
`Game::run`: for each UI event, `Menu::process_ui_event` runs first (modelled
from the spec: it adjusts options-menu widgets only and leaves the modelled
state and the event unchanged), then `Game::process_ui_event`. -/
def drainUiEvents : IoEnv → Game → List UIEvent → Game × List Action
  | _, g, [] => (g, [])
  | io, g, e :: rest =>
    let (g1, _, t1) := Game.process_ui_event io g e
    let (g2, t2) := drainUiEvents io g1 rest
    (g2, (Action.dispatchUi e.source :: t1) ++ t2)

/-- `Game::update`: `level.update(engine, time)` followed by
`engine.update(time.delta)` — both external collaborators; the modelled
observable is that the update was issued with exactly `time.delta` and
`time.elapsed`. -/
def Game.update (g : Game) (t : GameTime) : Game × List Action :=
  (g, [Action.update t.delta t.elapsed])

/-- One simulation step of the catch-up loop body: poll OS events, dispatch
them, drain the UI event queue, then invoke the update. -/
def simStep (env : RunEnv) (s : Nat) (g : Game) (gt : GameTime) : Game × List Action :=
  let (g1, t1) := drainOsEvents g (env.osEvents s)
  let (g2, t2) := drainUiEvents env.io g1 (env.uiEvents s)
  let (g3, t3) := Game.update g2 gt
  (g3, Action.poll_os :: (t1 ++ t2 ++ t3))

/-- The catch-up loop `while dt >= fixed_timestep { dt -= fixed_timestep;
game_time.elapsed += fixed_timestep; ...step... }` of `Game::run`.  `s` counts
simulation steps issued so far (it indexes the event schedule of `RunEnv`). -/
def inner_loop (env : RunEnv) (g : Game) (gt : GameTime) (dt : ℚ) (s : Nat) :
    Game × GameTime × Nat × List Action :=
  if h : fixed_timestep ≤ dt then
    let gt1 : GameTime := { gt with elapsed := gt.elapsed + fixed_timestep }
    let (g1, t1) := simStep env s g gt1
    let (g2, gt2, s2, t2) := inner_loop env g1 gt1 (dt - fixed_timestep) (s + 1)
    (g2, gt2, s2, t1 ++ t2)
  else (g, gt, s, [])
termination_by (⌊dt * 60⌋).toNat
decreasing_by
  have h2 : (dt - fixed_timestep) * 60 = dt * 60 - 1 := by
    simp only [fixed_timestep]; ring
  have h1 : (1 : ℚ) ≤ dt * 60 := by
    simp only [fixed_timestep] at h; linarith
  have h3 : ⌊dt * 60 - (1 : ℚ)⌋ = ⌊dt * 60⌋ - 1 := by
    exact_mod_cast Int.floor_sub_int (dt * 60) 1
  have h4 : (1 : ℤ) ≤ ⌊dt * 60⌋ := Int.le_floor.mpr (by exact_mod_cast h1)
  simp only [h2, h3]
  omega

/-- The outer `while self.running` loop of `Game::run`, truncated to `fuel`
outer iterations (the real loop may run unboundedly; every claim proved below
is about the iterations actually executed).  `update_statistics` and
`limit_fps` touch only debug text and real-time sleeping and are not part of
the modelled state.  Returns one action trace per completed outer
iteration. -/
def run_loop (env : RunEnv) :
    Nat → Game → GameTime → Nat → Nat → Game × GameTime × Nat × List (List Action)
  | 0, g, gt, s, _ => (g, gt, s, [])
  | fuel + 1, g, gt, s, iter =>
    if g.running then
      let dt := env.clock iter - gt.elapsed
      let (g1, gt1, s1, t1) := inner_loop env g gt dt s
      let (g2, gt2, s2, frames) := run_loop env fuel g1 gt1 s1 (iter + 1)
      (g2, gt2, s2, (t1 ++ [Action.render]) :: frames)
    else (g, gt, s, [])

/-- `Game::run`: initialize `game_time = { elapsed: 0.0, delta:
fixed_timestep }`, run the loop, and destroy the level on exit.  Returns the
final state, the final `game_time`, the per-iteration traces and the final
cleanup trace. -/
def Game.run (env : RunEnv) (fuel : Nat) (g : Game) :
    Game × GameTime × List (List Action) × List Action :=
  let gt0 : GameTime := { elapsed := 0, delta := fixed_timestep }
  let (g1, gt1, _, frames) := run_loop env fuel g gt0 0 0
  let (g2, tFinal) := g1.destroy_level
  (g2, gt1, frames, tFinal)

/-- Modelled from the spec: primitive values carried by serialized fields.
The StateVisitor implementation (`rg3d_core::visitor::Visitor`) is outside the
sources under verification; §4.3 requires the binary form to carry an
indicator of the value kind, modelled by this sum type. -/
inductive VValue where
  | int (v : Int)
  | boolean (b : Bool)
  | str (s : String)
deriving DecidableEq, Repr

/-- Modelled from the spec: a named region of the serialization tree, holding
named primitive fields and nested child regions (§3 VisitNode, §4.3). -/
inductive VRegion where
  | node (name : String) (fields : List (String × VValue)) (children : List VRegion)
deriving Repr

/-- Modelled from the spec: the binary artifact is a self-describing stream
carrying names, nesting structure, and value kinds (§4.3). -/
inductive VToken where
  | beginRegion (name : String)
  | endRegion
  | fieldTok (name : String) (v : VValue)
deriving DecidableEq, Repr

/-- Field list of a region encoded as tokens. -/
def fieldTokens (fs : List (String × VValue)) : List VToken :=
  fs.map fun p => VToken.fieldTok p.1 p.2

mutual
/-- Modelled from the spec: serialize one region — open the scope, write the
fields, recurse into the children, close the scope (§4.3 `enterRegion`,
`field`). -/
def encodeRegion : VRegion → List VToken
  | VRegion.node name fs cs =>
    VToken.beginRegion name :: (fieldTokens fs ++ encodeRegions cs ++ [VToken.endRegion])
/-- Serialize a list of sibling regions in order. -/
def encodeRegions : List VRegion → List VToken
  | [] => []
  | r :: rs => encodeRegion r ++ encodeRegions rs
end

/-- `saveBinary`: the artifact produced from the fully-built tree (§4.3). -/
def save_binary (r : VRegion) : List VToken := encodeRegion r

/-- Read the maximal prefix of field tokens. -/
def decodeFields : List VToken → List (String × VValue) × List VToken
  | VToken.fieldTok n v :: rest =>
    let (fs, r) := decodeFields rest
    ((n, v) :: fs, r)
  | ts => ([], ts)

/-- Modelled from the spec: reconstruct a maximal sequence of sibling regions
from the token stream, stopping at `endRegion` or end of stream; `fuel` bounds
the recursion depth (any fuel larger than the stream length is sufficient). -/
def decodeRegions : Nat → List VToken → Option (List VRegion × List VToken)
  | 0, _ => none
  | fuel + 1, ts =>
    match ts with
    | VToken.beginRegion name :: rest =>
      let (fs, rest1) := decodeFields rest
      match decodeRegions fuel rest1 with
      | some (cs, VToken.endRegion :: rest2) =>
        match decodeRegions fuel rest2 with
        | some (rs, rest3) => some (VRegion.node name fs cs :: rs, rest3)
        | none => none
      | _ => none
    | ts' => some ([], ts')

/-- `loadBinary`: reconstruct the single root region from the artifact,
requiring the stream to be exactly one region (§4.3). -/
def load_binary (ts : List VToken) : Option VRegion :=
  match decodeRegions (ts.length + 1) ts with
  | some ([r], []) => some r
  | _ => none

/-- Name of a region. -/
def regionName : VRegion → String
  | VRegion.node n _ _ => n

mutual
/-- Sibling field/region names are unique within every region of the tree
(§3: field/region names unique within their immediate parent). -/
def siblingNamesUnique : VRegion → Bool
  | VRegion.node _ fs cs =>
    decide ((fs.map Prod.fst ++ cs.map regionName).Nodup) && allSiblingNamesUnique cs
/-- `siblingNamesUnique` on every region of a list. -/
def allSiblingNamesUnique : List VRegion → Bool
  | [] => true
  | r :: rs => siblingNamesUnique r && allSiblingNamesUnique rs
end

/-- Does the stream start with a `beginRegion` token? -/
def leadsWithBegin : List VToken → Bool
  | VToken.beginRegion _ :: _ => true
  | _ => false

/-- Does the stream start with a field token? -/
def leadsWithField : List VToken → Bool
  | VToken.fieldTok _ _ :: _ => true
  | _ => false

/-- A sample menu with the four distinct button handles. -/
def menu0 : Menu :=
  { btn_new_game := 0, btn_save_game := 1, btn_load_game := 2, btn_quit_game := 3,
    visible := true }

/-- A sample live session. -/
def level7 : Level := { id := 7, hasPlayer := true, playerEvents := [] }

/-- A sample game state with a live session. -/
def game0 : Game := { menu := menu0, level := some level7, running := true, nextLevelId := 8 }

/-- Save collaborators that all succeed. -/
def okSaveEnv : SaveEnv :=
  { engineVisit := Except.ok (), levelVisit := Except.ok (), createTextOk := true,
    writeTextOk := true, saveBinary := Except.ok () }

/-- Load collaborators that all succeed, restoring a session with id 9. -/
def okLoadEnv : LoadEnv :=
  { loadBinary := Except.ok (), engineVisit := Except.ok (), levelVisit := Except.ok (),
    loadedLevel := some { id := 9, hasPlayer := true, playerEvents := [] } }

/-- Collaborators for the UI command handler, all succeeding. -/
def okIoEnv : IoEnv := { save := okSaveEnv, load := okLoadEnv }

/-- A key-down on the Escape (menu toggle) key. -/
def escPress : Event :=
  Event.windowEvent (WindowEvent.keyboardInput ElemState.pressed (some VirtualKeyCode.escape))

/-- Load collaborators where reading `save.bin` itself fails. -/
def failReadEnv : LoadEnv :=
  { loadBinary := Except.error "file not found", engineVisit := Except.ok (),
    levelVisit := Except.ok (), loadedLevel := none }

/-- Save collaborators where `File::create("save.txt")` succeeds but
`write_all` fails, making the `unwrap` panic. -/
def panicSaveEnv : SaveEnv :=
  { engineVisit := Except.ok (), levelVisit := Except.ok (), createTextOk := true,
    writeTextOk := false, saveBinary := Except.ok () }

/-- A click on the quit button that an earlier handler already marked
handled. -/
def handledQuitClick : UIEvent := { kind := UIEventKind.click, source := 3, handled := true }

/-- The update actions of a trace, as (delta, elapsed) pairs in order. -/
def updatesOf (t : List Action) : List (ℚ × ℚ) :=
  t.filterMap fun a =>
    match a with
    | Action.update d e => some (d, e)
    | _ => none

/-- Is the action an OS-event dispatch marker? -/
def isOsMark : Action → Bool
  | Action.dispatchOs _ => true
  | _ => false

/-- Is the action a UI-command dispatch marker? -/
def isUiMark : Action → Bool
  | Action.dispatchUi _ => true
  | _ => false

/-- Is the action a simulation update? -/
def isUpdateAct : Action → Bool
  | Action.update _ _ => true
  | _ => false

/-- Is the action a render? -/
def isRenderAct : Action → Bool
  | Action.render => true
  | _ => false

/-- Actions that may appear inside a dispatch phase: no dispatch markers of
the other phase, no update, no render. -/
def phaseFree (t : List Action) : Prop :=
  ∀ x ∈ t, isOsMark x = false ∧ isUiMark x = false ∧
    isUpdateAct x = false ∧ isRenderAct x = false

/-- Actions allowed during the OS-event dispatch phase of a step: anything
except UI-dispatch markers, updates and renders. -/
def osPhase (t : List Action) : Prop :=
  ∀ x ∈ t, isUiMark x = false ∧ isUpdateAct x = false ∧ isRenderAct x = false

/-- Actions allowed during the UI-command dispatch phase of a step: anything
except OS-dispatch markers, updates and renders. -/
def uiPhase (t : List Action) : Prop :=
  ∀ x ∈ t, isOsMark x = false ∧ isUpdateAct x = false ∧ isRenderAct x = false

/-- A quiescent run environment: the wall clock never advances and no events
arrive. -/
def constEnv : RunEnv :=
  { clock := fun _ => 0, osEvents := fun _ => [], uiEvents := fun _ => [],
    io := okIoEnv }

/-- A run environment whose wall clock advances by exactly one fixed step per
outer iteration, with no events. -/
def tickEnv : RunEnv :=
  { clock := fun i => (i + 1) * fixed_timestep, osEvents := fun _ => [],
    uiEvents := fun _ => [], io := okIoEnv }

/- ------------------------------------------------------------------ -/
/- Helper lemmas shared between the claims.                            -/
/- ------------------------------------------------------------------ -/

theorem destroy_level_level_none (g : Game) : g.destroy_level.1.level = none := by
  unfold Game.destroy_level
  cases hl : g.level <;> simp [hl]

theorem destroy_level_menu (g : Game) : g.destroy_level.1.menu = g.menu := by
  unfold Game.destroy_level
  cases hl : g.level <;> simp [hl]

theorem destroy_level_running (g : Game) : g.destroy_level.1.running = g.running := by
  unfold Game.destroy_level
  cases hl : g.level <;> simp [hl]

theorem dispatched_menu (c : Bool) (g : Game) (e : WindowEvent) :
    (Game.process_dispatched_event c g e).menu = g.menu := by
  unfold Game.process_dispatched_event
  split
  · rfl
  · split
    · split <;> rfl
    · rfl

theorem dispatched_running (c : Bool) (g : Game) (e : WindowEvent) :
    (Game.process_dispatched_event c g e).running = g.running := by
  unfold Game.process_dispatched_event
  split
  · rfl
  · split
    · split <;> rfl
    · rfl

theorem dispatched_consumed (g : Game) (e : WindowEvent) :
    Game.process_dispatched_event true g e = g := by
  unfold Game.process_dispatched_event
  simp

theorem dispatched_forwarded (g : Game) (e : WindowEvent) (l : Level)
    (hl : g.level = some l) (hp : l.hasPlayer = true) :
    (Game.process_dispatched_event false g e).playerEvents = g.playerEvents ++ [e] := by
  unfold Game.process_dispatched_event
  simp [hl, hp, Game.playerEvents]

theorem dispatched_playerEvents (c : Bool) (g : Game) (e : WindowEvent) :
    (Game.process_dispatched_event c g e).playerEvents = g.playerEvents ∨
    (Game.process_dispatched_event c g e).playerEvents = g.playerEvents ++ [e] := by
  unfold Game.process_dispatched_event
  cases c with
  | true => simp
  | false =>
    cases hl : g.level with
    | none => simp [Game.playerEvents, hl]
    | some l =>
      by_cases hp : l.hasPlayer <;> simp [Game.playerEvents, hl, hp]

theorem input_event_playerEvents (c : Bool) (g : Game) (e : WindowEvent) :
    (Game.process_input_event c g (Event.windowEvent e)).1.playerEvents =
      (Game.process_dispatched_event c g e).playerEvents := by
  unfold Game.process_input_event
  cases e with
  | closeRequested => simp [Game.playerEvents]
  | keyboardInput st key =>
    cases st <;> cases key with
    | none => simp
    | some k =>
      cases k <;> simp [Game.set_menu_visible, Game.playerEvents]
  | otherWindowEvent id => simp

theorem input_event_running_closeRequested (c : Bool) (g : Game) :
    (Game.process_input_event c g (Event.windowEvent WindowEvent.closeRequested)).1.running
      = false := by
  unfold Game.process_input_event
  simp

theorem input_event_menu_escape (c : Bool) (g : Game) :
    (Game.process_input_event c g escPress).1.menu.visible = !g.menu.visible := by
  unfold Game.process_input_event escPress
  simp [Game.set_menu_visible, Game.is_menu_visible, dispatched_menu]

/-- C10: `destroy_level` is idempotent — when no session exists it is a no-op
leaving the state unchanged, and destroying twice equals destroying once; in
particular after the quit command (which already destroyed the session and
cleared the running flag) the run loop's final cleanup performs no second
teardown: the quit trace is exactly one `destroy_level` trace and the cleanup
trace afterwards is empty. -/
theorem c10_destroy_level_idempotent (env : IoEnv) (g : Game) (e : UIEvent)
    (hk : e.kind = UIEventKind.click)
    (h1 : e.source ≠ g.menu.btn_new_game)
    (h2 : e.source ≠ g.menu.btn_save_game)
    (h3 : e.source ≠ g.menu.btn_load_game)
    (hq : e.source = g.menu.btn_quit_game) :
    (g.level = none → g.destroy_level = (g, [])) ∧
    g.destroy_level.1.destroy_level = (g.destroy_level.1, []) ∧
    (Game.process_ui_event env g e).1.running = false ∧
    (Game.process_ui_event env g e).2.2 = g.destroy_level.2 ∧
    (Game.process_ui_event env g e).1.destroy_level.2 = [] := by
  obtain ⟨k, s, hdl⟩ := e
  simp only at hk hq h1 h2 h3
  subst hk hq
  refine ⟨?_, ?_, ?_, ?_, ?_⟩
  · intro hnone
    unfold Game.destroy_level
    simp [hnone]
  · unfold Game.destroy_level
    cases hl : g.level <;> simp [hl]
  · simp [Game.process_ui_event, h1, h2, h3, destroy_level_running]
  · simp [Game.process_ui_event, h1, h2, h3]
  · simp only [Game.process_ui_event, h1, h2, h3, if_neg, if_pos]
    unfold Game.destroy_level
    cases hl : g.level <;> simp [hl]

/-- C10 witness: the theorem applied to a quit click on the concrete sample
game. -/
theorem c10_witness :
    (game0.level = none → game0.destroy_level = (game0, [])) ∧
    game0.destroy_level.1.destroy_level = (game0.destroy_level.1, []) ∧
    (Game.process_ui_event okIoEnv game0
      { kind := UIEventKind.click, source := 3, handled := false }).1.running = false ∧
    (Game.process_ui_event okIoEnv game0
      { kind := UIEventKind.click, source := 3, handled := false }).2.2 =
        game0.destroy_level.2 ∧
    (Game.process_ui_event okIoEnv game0
      { kind := UIEventKind.click, source := 3, handled := false }).1.destroy_level.2 = [] :=
  c10_destroy_level_idempotent okIoEnv game0
    { kind := UIEventKind.click, source := 3, handled := false }
    rfl (by decide) (by decide) (by decide) (by decide)

/-- C8: `start_new_game` always destroys any existing session first — its
teardown is observed in the trace before the construction of the fresh
session — then hides the menu; invoking it twice in immediate succession
leaves exactly one live session, the first invocation's session receiving its
teardown before the second session's construction. -/
theorem c8_start_new_game_single_session (g : Game) (l : Level) (hl : g.level = some l) :
    g.start_new_game.2 =
      [Action.teardown l.id, Action.construct g.nextLevelId, Action.set_menu false] ∧
    g.start_new_game.1.level =
      some { id := g.nextLevelId, hasPlayer := true, playerEvents := [] } ∧
    g.start_new_game.1.menu.visible = false ∧
    g.start_new_game.1.start_new_game.1.level =
      some { id := g.nextLevelId + 1, hasPlayer := true, playerEvents := [] } ∧
    g.start_new_game.1.start_new_game.2 =
      [Action.teardown g.nextLevelId, Action.construct (g.nextLevelId + 1),
       Action.set_menu false] := by
  simp [Game.start_new_game, Game.destroy_level, Game.set_menu_visible, hl]

/-- C8 witness: the theorem applied to the concrete sample game with its live
session. -/
theorem c8_witness :
    game0.start_new_game.2 =
      [Action.teardown level7.id, Action.construct game0.nextLevelId,
       Action.set_menu false] ∧
    game0.start_new_game.1.level =
      some { id := game0.nextLevelId, hasPlayer := true, playerEvents := [] } ∧
    game0.start_new_game.1.menu.visible = false ∧
    game0.start_new_game.1.start_new_game.1.level =
      some { id := game0.nextLevelId + 1, hasPlayer := true, playerEvents := [] } ∧
    game0.start_new_game.1.start_new_game.2 =
      [Action.teardown game0.nextLevelId, Action.construct (game0.nextLevelId + 1),
       Action.set_menu false] :=
  c8_start_new_game_single_session game0 level7 rfl

/-- C4: an OS event the UI layer reports consumed is never forwarded to the
session's player input handler in that step; an unconsumed event is forwarded
when a session with a player exists. -/
theorem c4_ui_consumption (g : Game) (e : WindowEvent) (l : Level)
    (hl : g.level = some l) (hp : l.hasPlayer = true) :
    (Game.process_input_event true g (Event.windowEvent e)).1.playerEvents =
      g.playerEvents ∧
    (Game.process_input_event false g (Event.windowEvent e)).1.playerEvents =
      g.playerEvents ++ [e] := by
  constructor
  · rw [input_event_playerEvents, dispatched_consumed]
  · rw [input_event_playerEvents, dispatched_forwarded g e l hl hp]

/-- C4 witness: the theorem applied to the concrete sample game and a close
request event. -/
theorem c4_witness :
    (Game.process_input_event true game0
      (Event.windowEvent WindowEvent.closeRequested)).1.playerEvents =
        game0.playerEvents ∧
    (Game.process_input_event false game0
      (Event.windowEvent WindowEvent.closeRequested)).1.playerEvents =
        game0.playerEvents ++ [WindowEvent.closeRequested] :=
  c4_ui_consumption game0 WindowEvent.closeRequested level7 rfl rfl

/-- C5: the global reactions apply regardless of event consumption — a close
request always clears the running flag and a pressed Escape key always flips
menu visibility; so, starting with the menu hidden, two menu-toggle presses in
separate steps yield menu visible after the first and hidden after the
second. -/
theorem c5_global_reactions (g : Game) (c c1 c2 : Bool)
    (hm : g.menu.visible = false) :
    (Game.process_input_event c g
      (Event.windowEvent WindowEvent.closeRequested)).1.running = false ∧
    (Game.process_input_event c g escPress).1.menu.visible = !g.menu.visible ∧
    (Game.process_input_event c1 g escPress).1.menu.visible = true ∧
    (Game.process_input_event c2
      (Game.process_input_event c1 g escPress).1 escPress).1.menu.visible = false := by
  refine ⟨input_event_running_closeRequested c g, input_event_menu_escape c g, ?_, ?_⟩
  · rw [input_event_menu_escape, hm]
    rfl
  · rw [input_event_menu_escape, input_event_menu_escape, hm]
    rfl

/-- C5 witness: the theorem applied to the concrete sample game with the menu
hidden. -/
theorem c5_witness :
    (Game.process_input_event true { game0 with menu := { menu0 with visible := false } }
      (Event.windowEvent WindowEvent.closeRequested)).1.running = false ∧
    (Game.process_input_event true { game0 with menu := { menu0 with visible := false } }
      escPress).1.menu.visible =
        !({ game0 with menu := { menu0 with visible := false } } : Game).menu.visible ∧
    (Game.process_input_event false { game0 with menu := { menu0 with visible := false } }
      escPress).1.menu.visible = true ∧
    (Game.process_input_event true
      (Game.process_input_event false { game0 with menu := { menu0 with visible := false } }
        escPress).1 escPress).1.menu.visible = false :=
  c5_global_reactions { game0 with menu := { menu0 with visible := false } }
    true false true rfl

/-- C1 counterexample: with a live session and a binary artifact that cannot
be read, `load_game` leaves the prior session fully intact — the session is
not destroyed before the read, and this failure does not leave the
application with no active session; the trace shows the read happening with
no preceding teardown. -/
theorem c1_counterexample :
    (Game.load_game failReadEnv game0).1 = game0 ∧
    (Game.load_game failReadEnv game0).1.level = some level7 ∧
    (Game.load_game failReadEnv game0).2 =
      [Action.read_binary,
       Action.report "failed to load a save, reason: file not found"] :=
  ⟨rfl, rfl, rfl⟩

/-- C1 amended: `load_game` reads the binary artifact first; on a read
failure the prior session is retained and only a reason is reported; only
after a successful read is the existing session destroyed (the teardown
follows the read in the trace), after which engine state then level state are
restored; a failure in either restore stage reports the reason and leaves the
application with no active session, and full success installs the loaded
level and hides the menu. -/
theorem c1_load_destroys_after_read (env : LoadEnv) (g : Game) :
    (∀ e, env.loadBinary = Except.error e →
      Game.load_game env g =
        (g, [Action.read_binary,
             Action.report ("failed to load a save, reason: " ++ e)])) ∧
    (env.loadBinary = Except.ok () → ∀ l, g.level = some l →
      (Game.load_game env g).2.take 2 =
        [Action.read_binary, Action.teardown l.id]) ∧
    (env.loadBinary = Except.ok () →
      ((∃ e, env.engineVisit = Except.error e) ∨
       (env.engineVisit = Except.ok () ∧ ∃ e, env.levelVisit = Except.error e)) →
      (Game.load_game env g).1.level = none ∧
      ∃ msg, Action.report msg ∈ (Game.load_game env g).2) ∧
    (env.loadBinary = Except.ok () → env.engineVisit = Except.ok () →
      env.levelVisit = Except.ok () →
      (Game.load_game env g).1.level = env.loadedLevel ∧
      (Game.load_game env g).1.menu.visible = false) := by
  obtain ⟨lb, ev, lv, ll⟩ := env
  cases lb with
  | error e0 =>
    refine ⟨?_, ?_, ?_, ?_⟩
    · intro e he
      simp only [Except.error.injEq] at he
      subst he
      rfl
    · intro h; simp at h
    · intro h; simp at h
    · intro h; simp at h
  | ok u =>
    cases u
    refine ⟨?_, ?_, ?_, ?_⟩
    · intro e he; simp at he
    · intro _ l hgl
      cases ev <;> cases lv <;>
        simp [Game.load_game, Game.destroy_level, Game.set_menu_visible, hgl]
    · intro _ hfail
      rcases hfail with ⟨e1, he1⟩ | ⟨hok, e1, he1⟩
      · subst he1
        cases hgl : g.level <;>
          simp [Game.load_game, Game.destroy_level, hgl]
      · simp only at hok
        subst hok he1
        cases hgl : g.level <;>
          simp [Game.load_game, Game.destroy_level, hgl]
    · intro _ hev hlv
      simp only at hev hlv
      subst hev hlv
      cases hgl : g.level <;>
        simp [Game.load_game, Game.destroy_level, Game.set_menu_visible, hgl]

/-- C1 witness: the amended theorem applied to the fully-successful load on
the concrete sample game; the implications are discharged concretely. -/
theorem c1_witness :
    (Game.load_game okLoadEnv game0).2.take 2 =
      [Action.read_binary, Action.teardown level7.id] ∧
    (Game.load_game okLoadEnv game0).1.level = okLoadEnv.loadedLevel ∧
    (Game.load_game okLoadEnv game0).1.menu.visible = false := by
  have h := c1_load_destroys_after_read okLoadEnv game0
  exact ⟨h.2.1 rfl level7 rfl, h.2.2.2 rfl rfl rfl⟩

/-- C6 counterexample: when `File::create("save.txt")` succeeds but the
`write_all` on it fails, `save_game` panics through the `.unwrap()` rather
than returning a failure result — refuting "never throws past this
boundary". -/
theorem c6_counterexample :
    (Game.save_game panicSaveEnv).1 = RustOutcome.panicked ∧
    (Game.save_game panicSaveEnv).2 =
      [Action.visit "Engine", Action.visit "Level", Action.write_text] :=
  ⟨rfl, rfl⟩

/-- C6 amended: `save_game` visits the `"Engine"` state first and then the
`"Level"` state, writes the artifacts only after both visits succeeded (the
full in-memory tree is built before any write), and returns a success/failure
result carrying the reason — except that a failure of the `write_all` on the
diagnostic text artifact panics through `.unwrap()` instead of returning a
result; that is the only panic path. -/
theorem c6_save_boundary (env : SaveEnv) :
    (Game.save_game env).2.head? = some (Action.visit "Engine") ∧
    ((Action.write_text ∈ (Game.save_game env).2 ∨
      Action.write_binary ∈ (Game.save_game env).2) →
      env.engineVisit = Except.ok () ∧ env.levelVisit = Except.ok () ∧
      (Game.save_game env).2.take 2 = [Action.visit "Engine", Action.visit "Level"]) ∧
    ((env.createTextOk = false ∨ env.writeTextOk = true) →
      (Game.save_game env).1 ≠ RustOutcome.panicked) ∧
    ((Game.save_game env).1 = RustOutcome.panicked ↔
      env.engineVisit = Except.ok () ∧ env.levelVisit = Except.ok () ∧
      env.createTextOk = true ∧ env.writeTextOk = false) ∧
    (∀ e, env.engineVisit = Except.error e →
      Game.save_game env = (RustOutcome.err e, [Action.visit "Engine"])) ∧
    (env.engineVisit = Except.ok () → env.levelVisit = Except.ok () →
      (env.createTextOk = false ∨ env.writeTextOk = true) →
      ((Game.save_game env).1 = RustOutcome.ok () ↔ env.saveBinary = Except.ok ())) := by
  obtain ⟨ev, lv, ct, wt, sb⟩ := env
  rcases ev with e1 | ⟨⟩ <;> rcases lv with e2 | ⟨⟩ <;> cases ct <;> cases wt <;>
    rcases sb with e3 | ⟨⟩ <;> simp [Game.save_game]

/-- C6 witness: the amended theorem applied to the all-successful save
collaborators; the implications are discharged concretely. -/
theorem c6_witness :
    (Game.save_game okSaveEnv).2.head? = some (Action.visit "Engine") ∧
    (Game.save_game okSaveEnv).2.take 2 =
      [Action.visit "Engine", Action.visit "Level"] ∧
    (Game.save_game okSaveEnv).1 ≠ RustOutcome.panicked ∧
    ((Game.save_game okSaveEnv).1 = RustOutcome.ok () ↔
      okSaveEnv.saveBinary = Except.ok ()) := by
  have h := c6_save_boundary okSaveEnv
  exact ⟨h.1, (h.2.1 (Or.inl (by decide))).2.2, h.2.2.1 (Or.inr rfl),
    h.2.2.2.2.2 rfl rfl (Or.inr rfl)⟩

/-- C7 counterexample: an application-level click whose `handled` flag is
already true (as a recognizing earlier handler would have left it) still
fires the quit command in the later application-level handler — the `handled`
flag does not suppress later handlers in the pass. -/
theorem c7_counterexample :
    handledQuitClick.handled = true ∧
    handledQuitClick.source = game0.menu.btn_quit_game ∧
    game0.running = true ∧
    (Game.process_ui_event okIoEnv game0 handledQuitClick).1.running = false ∧
    (Game.process_ui_event okIoEnv game0 handledQuitClick).2.2 =
      [Action.teardown 7] :=
  ⟨rfl, rfl, rfl, rfl, rfl⟩

theorem ui_event_click_new (env : IoEnv) (g : Game) (s : Nat) (hdl : Bool)
    (h1 : s = g.menu.btn_new_game) :
    Game.process_ui_event env g ⟨UIEventKind.click, s, hdl⟩ =
      (g.start_new_game.1, ⟨UIEventKind.click, s, true⟩, g.start_new_game.2) := by
  simp [Game.process_ui_event, h1]

theorem ui_event_click_save (env : IoEnv) (g : Game) (s : Nat) (hdl : Bool)
    (o : RustOutcome Unit) (t : List Action)
    (h1 : ¬s = g.menu.btn_new_game) (h2 : s = g.menu.btn_save_game)
    (ho : Game.save_game env.save = (o, t)) :
    Game.process_ui_event env g ⟨UIEventKind.click, s, hdl⟩ =
      match o with
      | RustOutcome.ok _ =>
        (g, ⟨UIEventKind.click, s, true⟩, t ++ [Action.report "successfully saved"])
      | RustOutcome.err msg =>
        (g, ⟨UIEventKind.click, s, true⟩,
          t ++ [Action.report ("failed to make a save, reason: " ++ msg)])
      | RustOutcome.panicked =>
        (g, ⟨UIEventKind.click, s, hdl⟩, t ++ [Action.panicked]) := by
  subst h2
  cases o <;> simp [Game.process_ui_event, if_neg h1, ho]

theorem ui_event_click_load (env : IoEnv) (g : Game) (s : Nat) (hdl : Bool)
    (h1 : ¬s = g.menu.btn_new_game) (h2 : ¬s = g.menu.btn_save_game)
    (h3 : s = g.menu.btn_load_game) :
    Game.process_ui_event env g ⟨UIEventKind.click, s, hdl⟩ =
      ((g.load_game env.load).1, ⟨UIEventKind.click, s, true⟩,
        (g.load_game env.load).2) := by
  subst h3
  simp [Game.process_ui_event, if_neg h1, if_neg h2]

theorem ui_event_click_quit (env : IoEnv) (g : Game) (s : Nat) (hdl : Bool)
    (h1 : ¬s = g.menu.btn_new_game) (h2 : ¬s = g.menu.btn_save_game)
    (h3 : ¬s = g.menu.btn_load_game) (h4 : s = g.menu.btn_quit_game) :
    Game.process_ui_event env g ⟨UIEventKind.click, s, hdl⟩ =
      ({ g.destroy_level.1 with running := false }, ⟨UIEventKind.click, s, true⟩,
        g.destroy_level.2) := by
  subst h4
  simp [Game.process_ui_event, if_neg h1, if_neg h2, if_neg h3]

theorem ui_event_click_unrecognized (env : IoEnv) (g : Game) (s : Nat) (hdl : Bool)
    (h1 : ¬s = g.menu.btn_new_game) (h2 : ¬s = g.menu.btn_save_game)
    (h3 : ¬s = g.menu.btn_load_game) (h4 : ¬s = g.menu.btn_quit_game) :
    Game.process_ui_event env g ⟨UIEventKind.click, s, hdl⟩ =
      (g, ⟨UIEventKind.click, s, hdl⟩, []) := by
  simp [Game.process_ui_event, if_neg h1, if_neg h2, if_neg h3, if_neg h4]

/-- C7 amended: a handler that recognizes a click's source sets
`handled = true` (the panicking save path aside) and fires exactly the
command of the first matching source, so a single source activation fires its
command at most once per pass; but the incoming `handled` flag is never
consulted — the resulting state and actions are independent of it — so the
flag itself suppresses no later handler; an event matching no source is left
untouched and fires nothing. -/
theorem c7_handled_not_consulted (env : IoEnv) (g : Game) (e : UIEvent) (b : Bool)
    (hk : e.kind = UIEventKind.click) :
    ((Game.process_ui_event env g { e with handled := b }).1 =
      (Game.process_ui_event env g { e with handled := false }).1) ∧
    ((Game.process_ui_event env g { e with handled := b }).2.2 =
      (Game.process_ui_event env g { e with handled := false }).2.2) ∧
    (e.source = g.menu.btn_new_game →
      Game.process_ui_event env g e =
        (g.start_new_game.1, { e with handled := true }, g.start_new_game.2)) ∧
    (e.source ≠ g.menu.btn_new_game → e.source = g.menu.btn_save_game →
      (Game.save_game env.save).1 ≠ RustOutcome.panicked →
      (Game.process_ui_event env g e).2.1.handled = true ∧
      (Game.process_ui_event env g e).1 = g) ∧
    (e.source ≠ g.menu.btn_new_game → e.source ≠ g.menu.btn_save_game →
      e.source = g.menu.btn_load_game →
      Game.process_ui_event env g e =
        ((g.load_game env.load).1, { e with handled := true },
          (g.load_game env.load).2)) ∧
    (e.source ≠ g.menu.btn_new_game → e.source ≠ g.menu.btn_save_game →
      e.source ≠ g.menu.btn_load_game → e.source = g.menu.btn_quit_game →
      Game.process_ui_event env g e =
        ({ g.destroy_level.1 with running := false }, { e with handled := true },
          g.destroy_level.2)) ∧
    (e.source ≠ g.menu.btn_new_game → e.source ≠ g.menu.btn_save_game →
      e.source ≠ g.menu.btn_load_game → e.source ≠ g.menu.btn_quit_game →
      Game.process_ui_event env g e = (g, e, [])) := by
  obtain ⟨k, s, hdl⟩ := e
  simp only at hk
  subst hk
  rcases ho : Game.save_game env.save with ⟨o, t⟩
  by_cases h1 : s = g.menu.btn_new_game
  · rw [ui_event_click_new env g s b h1, ui_event_click_new env g s false h1]
    refine ⟨rfl, rfl, fun _ => ui_event_click_new env g s hdl h1, ?_, ?_, ?_, ?_⟩ <;>
      (intro hc; exact absurd h1 hc)
  · by_cases h2 : s = g.menu.btn_save_game
    · rw [ui_event_click_save env g s b o t h1 h2 ho,
        ui_event_click_save env g s false o t h1 h2 ho,
        ui_event_click_save env g s hdl o t h1 h2 ho]
      refine ⟨?_, ?_, fun hc => absurd hc h1, ?_, ?_, ?_, ?_⟩
      · cases o <;> rfl
      · cases o <;> rfl
      · intro _ _ hnp
        try rw [ho] at hnp
        cases o with
        | ok u => exact ⟨rfl, rfl⟩
        | err msg => exact ⟨rfl, rfl⟩
        | panicked => exact absurd rfl hnp
      · intro _ hc _
        exact absurd h2 hc
      · intro _ hc _ _
        exact absurd h2 hc
      · intro _ hc _ _
        exact absurd h2 hc
    · by_cases h3 : s = g.menu.btn_load_game
      · rw [ui_event_click_load env g s b h1 h2 h3,
          ui_event_click_load env g s false h1 h2 h3]
        refine ⟨rfl, rfl, fun hc => absurd hc h1, fun _ hc => absurd hc h2,
          fun _ _ _ => ui_event_click_load env g s hdl h1 h2 h3, ?_, ?_⟩ <;>
          (intro _ _ hc; exact absurd h3 hc)
      · by_cases h4 : s = g.menu.btn_quit_game
        · rw [ui_event_click_quit env g s b h1 h2 h3 h4,
            ui_event_click_quit env g s false h1 h2 h3 h4]
          exact ⟨rfl, rfl, fun hc => absurd hc h1, fun _ hc => absurd hc h2,
            fun _ _ hc => absurd hc h3,
            fun _ _ _ _ => ui_event_click_quit env g s hdl h1 h2 h3 h4,
            fun _ _ _ hc => absurd h4 hc⟩
        · rw [ui_event_click_unrecognized env g s b h1 h2 h3 h4,
            ui_event_click_unrecognized env g s false h1 h2 h3 h4]
          exact ⟨rfl, rfl, fun hc => absurd hc h1, fun _ hc => absurd hc h2,
            fun _ _ hc => absurd hc h3, fun _ _ _ hc => absurd hc h4,
            fun _ _ _ _ => ui_event_click_unrecognized env g s hdl h1 h2 h3 h4⟩

/-- C7 witness: the amended theorem applied concretely — a new-game click
fires exactly the new-game command with `handled` set, and a click on an
unrecognized source fires nothing. -/
theorem c7_witness :
    Game.process_ui_event okIoEnv game0
      { kind := UIEventKind.click, source := 0, handled := false } =
      (game0.start_new_game.1,
       { kind := UIEventKind.click, source := 0, handled := true },
       game0.start_new_game.2) ∧
    Game.process_ui_event okIoEnv game0
      { kind := UIEventKind.click, source := 9, handled := false } =
      (game0, { kind := UIEventKind.click, source := 9, handled := false }, []) := by
  have h1 := c7_handled_not_consulted okIoEnv game0
    { kind := UIEventKind.click, source := 0, handled := false } true rfl
  have h2 := c7_handled_not_consulted okIoEnv game0
    { kind := UIEventKind.click, source := 9, handled := false } true rfl
  exact ⟨h1.2.2.1 rfl,
    h2.2.2.2.2.2.2 (by decide) (by decide) (by decide) (by decide)⟩

theorem decodeFields_not_field (u : List VToken) (h : leadsWithField u = false) :
    decodeFields u = ([], u) := by
  cases u with
  | nil => rfl
  | cons x r =>
    cases x with
    | beginRegion n => rfl
    | endRegion => rfl
    | fieldTok n v => simp [leadsWithField] at h

theorem decodeFields_append (fs : List (String × VValue)) (u : List VToken)
    (h : leadsWithField u = false) :
    decodeFields (fieldTokens fs ++ u) = (fs, u) := by
  induction fs with
  | nil => simpa [fieldTokens] using decodeFields_not_field u h
  | cons p fs ih =>
    rw [show fieldTokens (p :: fs) ++ u =
          VToken.fieldTok p.1 p.2 :: (fieldTokens fs ++ u) from by simp [fieldTokens]]
    simp only [decodeFields, ih]

theorem leadsWithField_encodeRegions (cs : List VRegion) (w : List VToken) :
    leadsWithField (encodeRegions cs ++ VToken.endRegion :: w) = false := by
  cases cs with
  | nil => simp [encodeRegions, leadsWithField]
  | cons r rs =>
    cases r with
    | node n fs c => simp [encodeRegions, encodeRegion, leadsWithField]

theorem encodeRegions_length_cons (n : String) (fs : List (String × VValue))
    (cs rs : List VRegion) :
    (encodeRegions (VRegion.node n fs cs :: rs)).length =
      fs.length + (encodeRegions cs).length + (encodeRegions rs).length + 2 := by
  simp [encodeRegions, encodeRegion, fieldTokens]
  omega

theorem decode_encodeRegions :
    ∀ (fuel : Nat) (rs : List VRegion) (t : List VToken),
      (encodeRegions rs).length < fuel → leadsWithBegin t = false →
      decodeRegions fuel (encodeRegions rs ++ t) = some (rs, t) := by
  intro fuel
  induction fuel with
  | zero =>
    intro rs t h _
    exact absurd h (Nat.not_lt_zero _)
  | succ fuel ih =>
    intro rs t hlen ht
    cases rs with
    | nil =>
      cases t with
      | nil => simp [decodeRegions, encodeRegions]
      | cons x w =>
        cases x with
        | beginRegion n => simp [leadsWithBegin] at ht
        | endRegion => simp [decodeRegions, encodeRegions]
        | fieldTok n v => simp [decodeRegions, encodeRegions]
    | cons r rs' =>
      cases r with
      | node name fs cs =>
        rw [encodeRegions_length_cons] at hlen
        have hshape : encodeRegions (VRegion.node name fs cs :: rs') ++ t =
            VToken.beginRegion name ::
              (fieldTokens fs ++ (encodeRegions cs ++
                (VToken.endRegion :: (encodeRegions rs' ++ t)))) := by
          simp [encodeRegions, encodeRegion]
        rw [hshape]
        have hfl := decodeFields_append fs
          (encodeRegions cs ++ (VToken.endRegion :: (encodeRegions rs' ++ t)))
          (leadsWithField_encodeRegions cs _)
        have h1 := ih cs (VToken.endRegion :: (encodeRegions rs' ++ t)) (by omega) rfl
        have h2 := ih rs' t (by omega) ht
        simp [decodeRegions, hfl, h1, h2]

/-- C9: round-trip law — for any tree of named regions and fields with no
duplicate sibling names, reconstructing from the binary artifact produced by
saving the tree yields the original tree exactly. -/
theorem c9_round_trip (r : VRegion) (h : siblingNamesUnique r = true) :
    load_binary (save_binary r) = some r := by
  have henc : encodeRegions [r] = encodeRegion r := by
    simp [encodeRegions]
  have hmain := decode_encodeRegions ((encodeRegion r).length + 1) [r] []
    (by rw [henc]; omega) rfl
  rw [henc, List.append_nil] at hmain
  unfold load_binary save_binary
  rw [hmain]

/-- The spec's concrete example: a region `"Level"` with integer field
`"Health" = 80`. -/
def levelHealthTree : VRegion :=
  VRegion.node "Level" [("Health", VValue.int 80)] []

/-- C9 witness: the round-trip theorem applied to the `"Level"`/`"Health"`
example tree, whose sibling names are unique. -/
theorem c9_witness :
    siblingNamesUnique levelHealthTree = true ∧
    load_binary (save_binary levelHealthTree) =
      some (VRegion.node "Level" [("Health", VValue.int 80)] []) :=
  ⟨by simp [levelHealthTree, siblingNamesUnique, allSiblingNamesUnique],
   c9_round_trip levelHealthTree
     (by simp [levelHealthTree, siblingNamesUnique, allSiblingNamesUnique])⟩

theorem phaseFree_nil : phaseFree [] := by
  intro x hx
  simp at hx

theorem phaseFree_append {s t : List Action} (hs : phaseFree s) (ht : phaseFree t) :
    phaseFree (s ++ t) := by
  intro x hx
  rcases List.mem_append.mp hx with h | h
  · exact hs x h
  · exact ht x h

theorem phaseFree_destroy_level (g : Game) : phaseFree g.destroy_level.2 := by
  unfold Game.destroy_level
  cases hl : g.level with
  | none => exact phaseFree_nil
  | some l =>
    intro x hx
    simp at hx
    subst hx
    exact ⟨rfl, rfl, rfl, rfl⟩

theorem phaseFree_set_menu_visible (g : Game) (b : Bool) :
    phaseFree (g.set_menu_visible b).2 := by
  intro x hx
  simp [Game.set_menu_visible] at hx
  subst hx
  exact ⟨rfl, rfl, rfl, rfl⟩

theorem phaseFree_start_new_game (g : Game) : phaseFree g.start_new_game.2 := by
  rcases hd : g.destroy_level with ⟨g1, t1⟩
  have h1 := phaseFree_destroy_level g
  rw [hd] at h1
  intro x hx
  simp only [Game.start_new_game, hd, Game.set_menu_visible] at hx
  rcases List.mem_append.mp hx with h | h
  · rcases List.mem_append.mp h with h | h
    · exact h1 x h
    · simp at h
      subst h
      exact ⟨rfl, rfl, rfl, rfl⟩
  · simp at h
    subst h
    exact ⟨rfl, rfl, rfl, rfl⟩

theorem phaseFree_save_game (env : SaveEnv) : phaseFree (Game.save_game env).2 := by
  obtain ⟨ev, lv, ct, wt, sb⟩ := env
  rcases ev with e1 | ⟨⟩ <;> rcases lv with e2 | ⟨⟩ <;> cases ct <;> cases wt <;>
    rcases sb with e3 | ⟨⟩ <;>
    (intro x hx
     simp [Game.save_game] at hx
     rcases hx with h | h | h | h <;> (try subst h) <;> exact ⟨rfl, rfl, rfl, rfl⟩)

theorem phaseFree_load_game (env : LoadEnv) (g : Game) :
    phaseFree (Game.load_game env g).2 := by
  obtain ⟨lb, ev, lv, ll⟩ := env
  rcases lb with e0 | ⟨⟩ <;> rcases ev with e1 | ⟨⟩ <;> rcases lv with e2 | ⟨⟩ <;>
    cases hl : g.level <;>
    (intro x hx
     simp [Game.load_game, Game.destroy_level, Game.set_menu_visible, hl] at hx
     rcases hx with h | h | h | h | h <;> (try subst h) <;> exact ⟨rfl, rfl, rfl, rfl⟩)

theorem phaseFree_process_ui_event (env : IoEnv) (g : Game) (e : UIEvent) :
    phaseFree (Game.process_ui_event env g e).2.2 := by
  obtain ⟨k, s, hdl⟩ := e
  cases k with
  | otherKind id =>
    intro x hx
    simp [Game.process_ui_event] at hx
  | click =>
    rcases ho : Game.save_game env.save with ⟨o, t⟩
    have hsv := phaseFree_save_game env.save
    rw [ho] at hsv
    by_cases h1 : s = g.menu.btn_new_game
    · rw [ui_event_click_new env g s hdl h1]
      exact phaseFree_start_new_game g
    · by_cases h2 : s = g.menu.btn_save_game
      · rw [ui_event_click_save env g s hdl o t h1 h2 ho]
        cases o <;>
          (refine phaseFree_append hsv ?_
           intro x hx
           simp at hx
           subst hx
           exact ⟨rfl, rfl, rfl, rfl⟩)
      · by_cases h3 : s = g.menu.btn_load_game
        · rw [ui_event_click_load env g s hdl h1 h2 h3]
          exact phaseFree_load_game env.load g
        · by_cases h4 : s = g.menu.btn_quit_game
          · rw [ui_event_click_quit env g s hdl h1 h2 h3 h4]
            exact phaseFree_destroy_level g
          · rw [ui_event_click_unrecognized env g s hdl h1 h2 h3 h4]
            exact phaseFree_nil

theorem phaseFree_process_input_event (c : Bool) (g : Game) (ev : Event) :
    phaseFree (Game.process_input_event c g ev).2 := by
  cases ev with
  | otherEvent id => exact phaseFree_nil
  | windowEvent e =>
    unfold Game.process_input_event
    cases e with
    | closeRequested => exact phaseFree_nil
    | keyboardInput st key =>
      cases st with
      | released => cases key <;> exact phaseFree_nil
      | pressed =>
        cases key with
        | none => exact phaseFree_nil
        | some vk =>
          cases vk with
          | escape => exact phaseFree_set_menu_visible _ _
          | otherKey c0 => exact phaseFree_nil
    | otherWindowEvent id => exact phaseFree_nil

theorem updatesOf_append (s t : List Action) :
    updatesOf (s ++ t) = updatesOf s ++ updatesOf t := by
  simp [updatesOf, List.filterMap_append]

theorem updatesOf_eq_nil : ∀ (t : List Action),
    (∀ x ∈ t, isUpdateAct x = false) → updatesOf t = []
  | [], _ => rfl
  | a :: t, h => by
    have ha := h a (by simp)
    have ht : ∀ x ∈ t, isUpdateAct x = false := fun x hx => h x (by simp [hx])
    have ih := updatesOf_eq_nil t ht
    cases a <;>
      first
        | simpa [updatesOf, List.filterMap_cons] using ih
        | simp [isUpdateAct] at ha

theorem osPhase_drainOs (g : Game) (evs : List (Bool × Event)) :
    osPhase (drainOsEvents g evs).2 := by
  induction evs generalizing g with
  | nil =>
    intro x hx
    simp [drainOsEvents] at hx
  | cons p rest ih =>
    rcases p with ⟨c, ev⟩
    rcases hpe : Game.process_input_event c g ev with ⟨g1, t1⟩
    rcases hdr : drainOsEvents g1 rest with ⟨g2, t2⟩
    intro x hx
    simp only [drainOsEvents, hpe, hdr] at hx
    rcases List.mem_append.mp hx with h | h
    · rcases List.mem_cons.mp h with h | h
      · subst h
        exact ⟨rfl, rfl, rfl⟩
      · have hp := phaseFree_process_input_event c g ev
        rw [hpe] at hp
        exact ⟨(hp x h).2.1, (hp x h).2.2.1, (hp x h).2.2.2⟩
    · have hr := ih g1
      rw [hdr] at hr
      exact hr x h

theorem uiPhase_drainUi (io : IoEnv) (g : Game) (es : List UIEvent) :
    uiPhase (drainUiEvents io g es).2 := by
  induction es generalizing g with
  | nil =>
    intro x hx
    simp [drainUiEvents] at hx
  | cons e rest ih =>
    rcases hpe : Game.process_ui_event io g e with ⟨g1, e1, t1⟩
    rcases hdr : drainUiEvents io g1 rest with ⟨g2, t2⟩
    intro x hx
    simp only [drainUiEvents, hpe, hdr] at hx
    rcases List.mem_append.mp hx with h | h
    · rcases List.mem_cons.mp h with h | h
      · subst h
        exact ⟨rfl, rfl, rfl⟩
      · have hp := phaseFree_process_ui_event io g e
        rw [hpe] at hp
        exact ⟨(hp x h).1, (hp x h).2.2.1, (hp x h).2.2.2⟩
    · have hr := ih g1
      rw [hdr] at hr
      exact hr x h

theorem simStep_trace (env : RunEnv) (s : Nat) (g : Game) (gt : GameTime) :
    ∃ a b, (simStep env s g gt).2 =
        Action.poll_os :: (a ++ b ++ [Action.update gt.delta gt.elapsed]) ∧
      osPhase a ∧ uiPhase b := by
  rcases h1 : drainOsEvents g (env.osEvents s) with ⟨g1, t1⟩
  rcases h2 : drainUiEvents env.io g1 (env.uiEvents s) with ⟨g2, t2⟩
  have ho := osPhase_drainOs g (env.osEvents s)
  rw [h1] at ho
  have hu := uiPhase_drainUi env.io g1 (env.uiEvents s)
  rw [h2] at hu
  refine ⟨t1, t2, ?_, ho, hu⟩
  simp [simStep, h1, h2, Game.update]

theorem updatesOf_simStep (env : RunEnv) (s : Nat) (g : Game) (gt : GameTime) :
    updatesOf (simStep env s g gt).2 = [(gt.delta, gt.elapsed)] := by
  obtain ⟨a, b, htr, ha, hb⟩ := simStep_trace env s g gt
  rw [htr]
  have hna : updatesOf a = [] := updatesOf_eq_nil a (fun x hx => (ha x hx).2.1)
  have hnb : updatesOf b = [] := updatesOf_eq_nil b (fun x hx => (hb x hx).2.1)
  have hsplit : Action.poll_os :: (a ++ b ++ [Action.update gt.delta gt.elapsed]) =
      (([Action.poll_os] ++ a) ++ b) ++ [Action.update gt.delta gt.elapsed] := by
    simp
  rw [hsplit, updatesOf_append, updatesOf_append, updatesOf_append, hna, hnb]
  rfl

theorem inner_loop_spec (env : RunEnv) (g : Game) (gt : GameTime) (dt : ℚ) (s : Nat) :
    ∃ (k : Nat) (steps : List (List Action)),
      (inner_loop env g gt dt s).2.1.delta = gt.delta ∧
      (inner_loop env g gt dt s).2.1.elapsed = gt.elapsed + k * fixed_timestep ∧
      updatesOf (inner_loop env g gt dt s).2.2.2 =
        (List.range k).map
          (fun i : Nat => (gt.delta, gt.elapsed + ((i : ℚ) + 1) * fixed_timestep)) ∧
      (inner_loop env g gt dt s).2.2.2 = steps.join ∧
      (∀ st ∈ steps, ∃ a b d e,
        st = Action.poll_os :: (a ++ b ++ [Action.update d e]) ∧
        osPhase a ∧ uiPhase b) := by
  induction g, gt, dt, s using inner_loop.induct env with
  | case1 g gt dt s h gt1 g1 t1 hsim g2 gt2 s2 t2 hrec ih =>
    have hgt1 : gt1 = { elapsed := gt.elapsed + fixed_timestep, delta := gt.delta } := rfl
    rw [hgt1] at hsim hrec ih
    have hunf : inner_loop env g gt dt s = (g2, gt2, s2, t1 ++ t2) := by
      rw [inner_loop.eq_def, dif_pos h]
      simp only [hsim, hrec]
    obtain ⟨k2, steps2, hd2, he2, hu2, hj2, hs2⟩ := ih
    rw [hrec] at hd2 he2 hu2 hj2
    dsimp only at hd2 he2 hu2 hj2
    obtain ⟨a, b, htr, hpa, hpb⟩ :=
      simStep_trace env s g { elapsed := gt.elapsed + fixed_timestep, delta := gt.delta }
    have hu1 :=
      updatesOf_simStep env s g { elapsed := gt.elapsed + fixed_timestep, delta := gt.delta }
    rw [hsim] at htr hu1
    dsimp only at htr hu1
    refine ⟨k2 + 1,
      (Action.poll_os ::
        (a ++ b ++ [Action.update gt.delta (gt.elapsed + fixed_timestep)])) :: steps2,
      ?_, ?_, ?_, ?_, ?_⟩
    · rw [hunf]
      exact hd2
    · rw [hunf]
      dsimp only
      rw [he2]
      push_cast
      ring
    · rw [hunf]
      dsimp only
      rw [updatesOf_append, hu1, hu2]
      rw [List.range_succ_eq_map, List.map_cons, List.map_map, List.singleton_append]
      congr 1
      · simp
      · refine List.map_congr_left fun i _ => ?_
        simp only [Function.comp_apply, Nat.cast_succ, Prod.mk.injEq]
        exact ⟨trivial, by ring⟩
    · rw [hunf]
      dsimp only
      rw [htr, hj2]
      simp
    · intro st hst
      rcases List.mem_cons.mp hst with h' | h'
      · subst h'
        exact ⟨a, b, gt.delta, gt.elapsed + fixed_timestep, rfl, hpa, hpb⟩
      · exact hs2 st h'
  | case2 g gt dt s h =>
    have hunf : inner_loop env g gt dt s = (g, gt, s, []) := by
      rw [inner_loop.eq_def, dif_neg h]
    refine ⟨0, [], ?_, ?_, ?_, ?_, ?_⟩
    · rw [hunf]
    · rw [hunf]
      simp
    · rw [hunf]
      simp [updatesOf]
    · rw [hunf]
      rfl
    · intro st hst
      simp at hst

theorem run_loop_spec (env : RunEnv) :
    ∀ (fuel : Nat) (g : Game) (gt : GameTime) (s iter : Nat),
      ∃ k : Nat,
        (run_loop env fuel g gt s iter).2.1.delta = gt.delta ∧
        (run_loop env fuel g gt s iter).2.1.elapsed = gt.elapsed + k * fixed_timestep ∧
        updatesOf (run_loop env fuel g gt s iter).2.2.2.join =
          (List.range k).map
            (fun i : Nat => (gt.delta, gt.elapsed + ((i : ℚ) + 1) * fixed_timestep)) := by
  intro fuel
  induction fuel with
  | zero =>
    intro g gt s iter
    exact ⟨0, rfl, by simp [run_loop], by simp [run_loop, updatesOf]⟩
  | succ fuel ih =>
    intro g gt s iter
    by_cases hr : g.running
    · rcases hin : inner_loop env g gt (env.clock iter - gt.elapsed) s with ⟨g1, gt1, s1, t1⟩
      rcases hrl : run_loop env fuel g1 gt1 s1 (iter + 1) with ⟨g2, gt2, s2, frames⟩
      have hunf : run_loop env (fuel + 1) g gt s iter =
          (g2, gt2, s2, (t1 ++ [Action.render]) :: frames) := by
        simp only [run_loop, hr, if_true, hin, hrl]
      obtain ⟨k1, steps1, hd1, he1, hu1, hj1, hs1⟩ :=
        inner_loop_spec env g gt (env.clock iter - gt.elapsed) s
      rw [hin] at hd1 he1 hu1
      dsimp only at hd1 he1 hu1
      obtain ⟨k2, hd2, he2, hu2⟩ := ih g1 gt1 s1 (iter + 1)
      rw [hrl] at hd2 he2 hu2
      dsimp only at hd2 he2 hu2
      rw [hd1, he1] at hu2
      refine ⟨k1 + k2, ?_, ?_, ?_⟩
      · rw [hunf]
        dsimp only
        rw [hd2, hd1]
      · rw [hunf]
        dsimp only
        rw [he2, he1]
        push_cast
        ring
      · rw [hunf]
        dsimp only
        rw [show ((t1 ++ [Action.render]) :: frames).join =
              (t1 ++ [Action.render]) ++ frames.join from by simp]
        rw [updatesOf_append, updatesOf_append, hu1, hu2]
        rw [show updatesOf [Action.render] = [] from rfl, List.append_nil]
        rw [List.range_add, List.map_append, List.map_map]
        congr 1
        refine List.map_congr_left fun i _ => ?_
        simp only [Function.comp_apply, Nat.cast_add, Prod.mk.injEq]
        exact ⟨by trivial, by ring⟩
    · have hunf : run_loop env (fuel + 1) g gt s iter = (g, gt, s, []) := by
        simp [run_loop, hr]
      refine ⟨0, ?_, ?_, ?_⟩
      · rw [hunf]
      · rw [hunf]
        simp
      · rw [hunf]
        simp [updatesOf]

/-- C2: over any bounded execution of the run loop, the final `GameTime.delta`
is exactly the fixed timestep (it is never mutated), every simulation update
is issued with exactly that delta as its step size, and the elapsed simulated
time of the successive updates is exactly `1·δ, 2·δ, …, n·δ` — it advances
only in increments of exactly `delta`; the final cleanup issues no update. -/
theorem c2_fixed_delta_updates (env : RunEnv) (fuel : Nat) (g : Game) :
    ∃ n : Nat,
      (Game.run env fuel g).2.1.delta = fixed_timestep ∧
      (Game.run env fuel g).2.1.elapsed = n * fixed_timestep ∧
      updatesOf (Game.run env fuel g).2.2.1.join =
        (List.range n).map
          (fun i : Nat => (fixed_timestep, ((i : ℚ) + 1) * fixed_timestep)) ∧
      updatesOf (Game.run env fuel g).2.2.2 = [] ∧
      ∀ p ∈ updatesOf (Game.run env fuel g).2.2.1.join, p.1 = fixed_timestep := by
  rcases hrl : run_loop env fuel g { elapsed := 0, delta := fixed_timestep } 0 0
    with ⟨g1, gt1, s1, frames⟩
  rcases hd : g1.destroy_level with ⟨g2, t2⟩
  have hrun : Game.run env fuel g = (g2, gt1, frames, t2) := by
    simp [Game.run, hrl, hd]
  obtain ⟨n, hdelta, helapsed, hupd⟩ :=
    run_loop_spec env fuel g { elapsed := 0, delta := fixed_timestep } 0 0
  rw [hrl] at hdelta helapsed hupd
  dsimp only at hdelta helapsed hupd
  refine ⟨n, ?_, ?_, ?_, ?_, ?_⟩
  · rw [hrun]
    exact hdelta
  · rw [hrun]
    dsimp only
    rw [helapsed]
    ring
  · rw [hrun]
    dsimp only
    rw [hupd]
    refine List.map_congr_left fun i _ => ?_
    simp only [Prod.mk.injEq]
    exact ⟨by trivial, by ring⟩
  · rw [hrun]
    dsimp only
    refine updatesOf_eq_nil t2 fun x hx => ?_
    have hp := phaseFree_destroy_level g1
    rw [hd] at hp
    exact (hp x hx).2.2.1
  · rw [hrun]
    dsimp only
    rw [hupd]
    intro p hp
    rcases List.mem_map.mp hp with ⟨i, _, hpi⟩
    rw [← hpi]

theorem render_not_mem_join (steps : List (List Action))
    (h : ∀ st ∈ steps, ∃ a b d e,
      st = Action.poll_os :: (a ++ b ++ [Action.update d e]) ∧ osPhase a ∧ uiPhase b) :
    Action.render ∉ steps.join := by
  intro hmem
  rcases List.mem_join.mp hmem with ⟨st, hst, hm⟩
  obtain ⟨a, b, d, e, hshape, ha, hb⟩ := h st hst
  subst hshape
  rcases List.mem_cons.mp hm with h' | h'
  · simp at h'
  · rcases List.mem_append.mp h' with h' | h'
    · rcases List.mem_append.mp h' with h' | h'
      · have hc := (ha _ h').2.2
        simp [isRenderAct] at hc
      · have hc := (hb _ h').2.2
        simp [isRenderAct] at hc
    · simp at h'

theorem run_loop_frames (env : RunEnv) :
    ∀ (fuel : Nat) (g : Game) (gt : GameTime) (s iter : Nat) (f : List Action),
      f ∈ (run_loop env fuel g gt s iter).2.2.2 →
      ∃ body, f = body ++ [Action.render] ∧ Action.render ∉ body ∧
        ∃ steps : List (List Action), body = steps.join ∧
          ∀ st ∈ steps, ∃ a b d e,
            st = Action.poll_os :: (a ++ b ++ [Action.update d e]) ∧
            osPhase a ∧ uiPhase b := by
  intro fuel
  induction fuel with
  | zero =>
    intro g gt s iter f hf
    simp [run_loop] at hf
  | succ fuel ih =>
    intro g gt s iter f hf
    by_cases hr : g.running
    · rcases hin : inner_loop env g gt (env.clock iter - gt.elapsed) s with ⟨g1, gt1, s1, t1⟩
      rcases hrl : run_loop env fuel g1 gt1 s1 (iter + 1) with ⟨g2, gt2, s2, frames⟩
      have hunf : run_loop env (fuel + 1) g gt s iter =
          (g2, gt2, s2, (t1 ++ [Action.render]) :: frames) := by
        simp only [run_loop, hr, if_true, hin, hrl]
      rw [hunf] at hf
      dsimp only at hf
      rcases List.mem_cons.mp hf with h | h
      · subst h
        obtain ⟨k1, steps1, _, _, _, hj1, hs1⟩ :=
          inner_loop_spec env g gt (env.clock iter - gt.elapsed) s
        rw [hin] at hj1
        dsimp only at hj1
        refine ⟨t1, rfl, ?_, steps1, hj1, hs1⟩
        rw [hj1]
        exact render_not_mem_join steps1 hs1
      · have hrest := ih g1 gt1 s1 (iter + 1) f
        rw [hrl] at hrest
        exact hrest h
    · have hunf : run_loop env (fuel + 1) g gt s iter = (g, gt, s, []) := by
        simp [run_loop, hr]
      rw [hunf] at hf
      simp at hf

/-- C3: every completed outer iteration of the run loop invokes render exactly
once, at the end of the iteration after the catch-up loop has drained; and the
iteration's body is a concatenation of simulation steps, each of which polls
OS events, dispatches them (no UI-command dispatch, update or render inside
that phase), then dispatches UI commands (no OS dispatch, update or render
inside that phase), and only then performs the single simulation update. -/
theorem c3_dispatch_order (env : RunEnv) (fuel : Nat) (g : Game) (f : List Action)
    (hf : f ∈ (Game.run env fuel g).2.2.1) :
    ∃ body, f = body ++ [Action.render] ∧ Action.render ∉ body ∧
      ∃ steps : List (List Action), body = steps.join ∧
        ∀ st ∈ steps, ∃ a b d e,
          st = Action.poll_os :: (a ++ b ++ [Action.update d e]) ∧
          osPhase a ∧ uiPhase b := by
  rcases hrl : run_loop env fuel g { elapsed := 0, delta := fixed_timestep } 0 0
    with ⟨g1, gt1, s1, frames⟩
  rcases hd : g1.destroy_level with ⟨g2, t2⟩
  have hrun : Game.run env fuel g = (g2, gt1, frames, t2) := by
    simp [Game.run, hrl, hd]
  rw [hrun] at hf
  dsimp only at hf
  have hfr := run_loop_frames env fuel g { elapsed := 0, delta := fixed_timestep } 0 0 f
  rw [hrl] at hfr
  exact hfr hf

/-- C3 witness: the theorem applied to the single frame of a one-iteration run
in the quiescent environment, whose frame is exactly one render. -/
theorem c3_witness :
    [Action.render] ∈ (Game.run constEnv 1 game0).2.2.1 ∧
    ∃ body, [Action.render] = body ++ [Action.render] ∧ Action.render ∉ body ∧
      ∃ steps : List (List Action), body = steps.join ∧
        ∀ st ∈ steps, ∃ a b d e,
          st = Action.poll_os :: (a ++ b ++ [Action.update d e]) ∧
          osPhase a ∧ uiPhase b := by
  have hcond : ¬ fixed_timestep ≤ constEnv.clock 0 := by
    norm_num [constEnv, fixed_timestep]
  have hin : inner_loop constEnv game0 { elapsed := 0, delta := fixed_timestep }
      (constEnv.clock 0) 0 =
      (game0, { elapsed := 0, delta := fixed_timestep }, 0, []) := by
    rw [inner_loop.eq_def, dif_neg hcond]
  have hrun0 : game0.running = true := rfl
  have h1 : run_loop constEnv 1 game0 { elapsed := 0, delta := fixed_timestep } 0 0 =
      (game0, { elapsed := 0, delta := fixed_timestep }, 0, [[Action.render]]) := by
    simp only [run_loop, hrun0, if_true]
    simp [hin]
  have hmem : [Action.render] ∈ (Game.run constEnv 1 game0).2.2.1 := by
    simp [Game.run, h1]
  exact ⟨hmem, c3_dispatch_order constEnv 1 game0 [Action.render] hmem⟩

end RustyShooter
